import Mathlib

/-!
Verification development for the mini-livechat PTT relay server.

Shallow embedding of the floor-control state machine (`src/core/floor.rs`,
`src/protocol/floor.rs`), the UDP demultiplexer and SRTP relay gate
(`src/media/net.rs`), the channel store (`src/core/channel.rs`,
`src/error.rs`) and the media-peer hub (`src/core/media_peer.rs`).

Modelling conventions:
* machine integers (`u8`, `u16`, `u64`, `usize`) become `Nat`; byte-level
  masking is written with `% 256` / `% 128` where the source masks;
* `current_timestamp()` becomes an explicit `now : Nat` argument;
* state mutation (`&mut self`) becomes a function returning the new state;
* `Arc<Endpoint>` sharing is modelled by an append-only `store` keyed by the
  immutable unique `ufrag`, with the two hub indices holding keys into it.
-/

namespace MiniLivechat

/-- `FloorIndicator` from `src/core/floor.rs`. -/
inductive FloorIndicator
  | Normal
  | Broadcast
  | ImminentPeril
  | Emergency
deriving DecidableEq, Repr

/-- `FloorControlState` from `src/core/floor.rs`. -/
inductive FloorControlState
  | Idle
  | Taken
deriving DecidableEq, Repr

/-- `FloorQueueEntry` from `src/core/floor.rs`. -/
structure FloorQueueEntry where
  user_id   : String
  priority  : Nat
  indicator : FloorIndicator
  queued_at : Nat
deriving DecidableEq, Repr

/-- `FloorControl` from `src/core/floor.rs`. -/
structure FloorControl where
  state           : FloorControlState
  floor_taken_by  : Option String
  floor_taken_at  : Option Nat
  floor_priority  : Nat
  floor_indicator : FloorIndicator
  queue           : List FloorQueueEntry
  last_ping_at    : Nat
deriving DecidableEq, Repr

/-- `config::FLOOR_MAX_TAKEN_MS` from `src/config.rs`. -/
def FLOOR_MAX_TAKEN_MS : Nat := 30000

/-- `FloorControl::new`. -/
def FloorControl.new : FloorControl :=
  { state           := .Idle
    floor_taken_by  := none
    floor_taken_at  := none
    floor_priority  := 0
    floor_indicator := .Normal
    queue           := []
    last_ping_at    := 0 }

/-- `FloorControl::clear_taken`. -/
def FloorControl.clear_taken (f : FloorControl) : FloorControl :=
  { f with
    state           := .Idle
    floor_taken_by  := none
    floor_taken_at  := none
    floor_priority  := 0
    floor_indicator := .Normal
    last_ping_at    := 0 }

/-- `FloorControl::grant` (`current_timestamp()` passed as `now`). -/
def FloorControl.grant (f : FloorControl) (now : Nat) (user_id : String)
    (priority : Nat) (indicator : FloorIndicator) : FloorControl :=
  { f with
    state           := .Taken
    floor_taken_by  := some user_id
    floor_taken_at  := some now
    floor_priority  := priority
    floor_indicator := indicator
    last_ping_at    := now }

/-- The insertion step of `FloorControl::enqueue`: the source computes the
first position whose entry has `priority < entry.priority` (default: the
queue length) and inserts there. -/
def insertByPriority (entry : FloorQueueEntry) :
    List FloorQueueEntry → List FloorQueueEntry
  | [] => [entry]
  | e :: rest =>
      if e.priority < entry.priority then entry :: e :: rest
      else e :: insertByPriority entry rest

/-- `FloorControl::enqueue`: drop any entry of the same `user_id`, then
insert by descending priority (FIFO among equal priorities). -/
def FloorControl.enqueue (f : FloorControl) (now : Nat) (user_id : String)
    (priority : Nat) (indicator : FloorIndicator) : FloorControl :=
  let kept := f.queue.filter (fun e => e.user_id ≠ user_id)
  { f with queue := insertByPriority ⟨user_id, priority, indicator, now⟩ kept }

/-- `FloorControl::dequeue_next` (`pop_front`), returning the popped entry
and the new state. -/
def FloorControl.dequeue_next (f : FloorControl) :
    Option FloorQueueEntry × FloorControl :=
  match f.queue with
  | []        => (none, f)
  | e :: rest => (some e, { f with queue := rest })

/-- `FloorControl::remove_from_queue`. -/
def FloorControl.remove_from_queue (f : FloorControl) (user_id : String) :
    FloorControl :=
  { f with queue := f.queue.filter (fun e => e.user_id ≠ user_id) }

/-- `FloorControl::queue_position` (1-based, `none` when absent). -/
def FloorControl.queue_position (f : FloorControl) (user_id : String) :
    Option Nat :=
  (f.queue.findIdx? (fun e => e.user_id = user_id)).map (· + 1)

/-- `FloorControl::can_preempt`. -/
def FloorControl.can_preempt (f : FloorControl) (req_priority : Nat)
    (req_indicator : FloorIndicator) : Bool :=
  if f.state ≠ .Taken then false
  else
    match req_indicator with
    | .Emergency => true
    | _          => decide (req_priority > f.floor_priority)

/-- `FloorControl::on_ping`. -/
def FloorControl.on_ping (f : FloorControl) (now : Nat) : FloorControl :=
  { f with last_ping_at := now }

/-- Server→client floor frames built by `make_packet` in
`src/protocol/floor.rs`; each constructor carries the opcode's payload
(the JSON string is a function of the opcode and payload). -/
inductive ServerMsg
  | FloorGranted (channel_id user_id : String) (duration : Nat)
  | FloorTaken (channel_id user_id : String) (indicator : FloorIndicator)
  | FloorIdle (channel_id : String)
  | FloorRevoke (channel_id cause : String)
  | FloorQueuePosInfo (channel_id : String) (queue_position queue_size : Nat)
  | FloorPong (channel_id : String)
deriving DecidableEq, Repr

/-- A `(target, exclude, json)` triple as produced by `decide_next`:
`target = none` means broadcast (minus `exclude`), `target = some uid`
means a frame for `uid` only. -/
abbrev FloorPacket := Option String × Option String × ServerMsg

/-- `decide_next` from `src/protocol/floor.rs`: pop the queue head and
grant it, or clear the taken state and announce idle. -/
def decide_next (channel_id : String) (now : Nat) (floor : FloorControl) :
    FloorControl × List FloorPacket :=
  match floor.dequeue_next with
  | (some next, f1) =>
      (f1.grant now next.user_id next.priority next.indicator,
       [(some next.user_id, none,
         .FloorGranted channel_id next.user_id FLOOR_MAX_TAKEN_MS),
        (none, some next.user_id,
         .FloorTaken channel_id next.user_id next.indicator)])
  | (none, f1) =>
      (f1.clear_taken, [(none, none, .FloorIdle channel_id)])

/-- A concrete delivery performed by the floor handlers after the lock is
released: either a frame to one user's queue or a broadcast to the channel
members with an optional exclusion. -/
inductive Send
  | toUser (uid : String) (msg : ServerMsg)
  | broadcast (exclude : Option String) (msg : ServerMsg)
deriving DecidableEq, Repr

/-- `dispatch_packets` from `src/protocol/floor.rs`, as the list of sends
it performs in order. -/
def dispatch_packets (packets : List FloorPacket) : List Send :=
  packets.map (fun p =>
    match p.1 with
    | some uid => .toUser uid p.2.2
    | none     => .broadcast p.2.1 p.2.2)

/-- The `Action` enum local to `handle_floor_request`. -/
inductive RequestAction
  | Granted (granted_json taken_json : ServerMsg)
  | Preempt (revoke_json granted_json taken_json : ServerMsg)
      (old_holder : String)
  | Queued (pos_json : ServerMsg)
deriving DecidableEq, Repr

/-- The floor-mutex critical section of `handle_floor_request`
(`src/protocol/floor.rs` lines 176–231): state transition plus staged
packets, by floor state and `can_preempt`. -/
def handle_floor_request (now : Nat) (user_id : String) (priority : Nat)
    (indicator : FloorIndicator) (channel_id : String)
    (floor : FloorControl) : FloorControl × RequestAction :=
  match floor.state with
  | .Idle =>
      (floor.grant now user_id priority indicator,
       .Granted
         (.FloorGranted channel_id user_id FLOOR_MAX_TAKEN_MS)
         (.FloorTaken channel_id user_id indicator))
  | .Taken =>
      if floor.can_preempt priority indicator then
        (floor.grant now user_id priority indicator,
         .Preempt
           (.FloorRevoke channel_id "preempted")
           (.FloorGranted channel_id user_id FLOOR_MAX_TAKEN_MS)
           (.FloorTaken channel_id user_id indicator)
           (floor.floor_taken_by.getD ""))
      else
        let f1 := floor.enqueue now user_id priority indicator
        let pos := (f1.queue_position user_id).getD 1
        (f1, .Queued (.FloorQueuePosInfo channel_id pos f1.queue.length))

/-- The post-lock send sequence of `handle_floor_request`
(`src/protocol/floor.rs` lines 234–266). -/
def request_sends (user_id : String) : RequestAction → List Send
  | .Granted g t      => [.toUser user_id g, .broadcast (some user_id) t]
  | .Preempt r g t old => [.toUser old r, .toUser user_id g,
                           .broadcast (some user_id) t]
  | .Queued p         => [.toUser user_id p]

/-- `PacketKind` from `src/media/net.rs`. -/
inductive PacketKind
  | Stun
  | Dtls
  | Srtp
  | Unknown
deriving DecidableEq, Repr

/-- `classify` from `src/media/net.rs`: first-byte triage. Bytes are
naturals below 256. -/
def classify (buf : List Nat) : PacketKind :=
  match buf.head? with
  | some b =>
      if b ≤ 3 then .Stun
      else if 20 ≤ b ∧ b ≤ 63 then .Dtls
      else if 128 ≤ b then .Srtp
      else .Unknown
  | none => .Unknown

/-- The handlers a datagram can reach in `run_udp_relay`. -/
inductive Handler
  | stunHandler
  | dtlsHandler
  | srtpHandler
deriving DecidableEq, Repr

/-- The dispatch step of `run_udp_relay`: empty datagrams are skipped,
`Unknown` is only traced; every other kind reaches its handler. -/
def dispatch (buf : List Nat) : Option Handler :=
  if buf = [] then none
  else
    match classify buf with
    | .Stun    => some .stunHandler
    | .Dtls    => some .dtlsHandler
    | .Srtp    => some .srtpHandler
    | .Unknown => none

/-- RTCP discrimination in `handle_srtp` (`src/media/net.rs`): `b1` is the
second byte; the source computes `pt = b1 & 0x7F` and flags RTCP when
`72 ≤ pt ≤ 79`. -/
def srtp_is_rtcp (b1 : Nat) : Bool :=
  let pt := b1 % 128
  72 ≤ pt && pt ≤ 79

/-- Outcome of the sub-classification inside `handle_srtp`. -/
inductive SrtpSub
  | Rtcp
  | Rtp
deriving DecidableEq, Repr

/-- `handle_srtp`'s sub-classification: the second byte is
`packet.get(1).copied().unwrap_or(0)`; RTCP packets are decrypted via
`decrypt_rtcp` and discarded, the rest go to `decrypt` (SRTP). -/
def srtp_sub_classify (packet : List Nat) : SrtpSub :=
  if srtp_is_rtcp (packet.getD 1 0) then .Rtcp else .Rtp

/-- An endpoint as the relay path sees it (`src/core/media_peer.rs`
`Endpoint`, address field as an optional abstract socket address). -/
structure Endpoint where
  ufrag      : String
  ice_pwd    : String
  user_id    : String
  channel_id : String
  address    : Option Nat
deriving DecidableEq, Repr

/-- `MediaPeerHub::get_channel_endpoints`. -/
def get_channel_endpoints (eps : List Endpoint) (channel_id : String) :
    List Endpoint :=
  eps.filter (fun ep => ep.channel_id = channel_id)

/-- `relay_to_channel` from `src/media/net.rs` (lines 318–370):
`channelFloor?` is the looked-up channel's floor (`none`: no such
channel); `eps` is the hub's endpoint list; `enc` is the per-target
outbound SRTP encryption (`none`: encrypt failure, target skipped).
Returns the performed sends `(target user_id, address, ciphertext)`. -/
def relay_to_channel (channelFloor? : Option FloorControl)
    (plaintext : List Nat) (sender_user sender_ufrag channel_id : String)
    (eps : List Endpoint) (enc : String → List Nat → Option (List Nat)) :
    List (String × Nat × List Nat) :=
  match channelFloor? with
  | none => []
  | some floor =>
      if floor.state = .Taken ∧ floor.floor_taken_by = some sender_user then
        (get_channel_endpoints eps channel_id).filterMap (fun target =>
          if target.ufrag = sender_ufrag then none
          else
            match target.address with
            | none      => none
            | some addr =>
                (enc target.ufrag plaintext).map
                  (fun c => (target.user_id, addr, c)))
      else []

/-- `LiveError` from `src/error.rs` (payloads kept where they carry
information used by `code`). -/
inductive LiveError
  | NotAuthenticated
  | InvalidToken
  | InvalidOpcode (op : Nat)
  | InvalidPayload (msg : String)
  | ChannelNotFound (id : String)
  | ChannelFull (id : String)
  | ChannelAccessDenied (id : String)
  | AlreadyInChannel (id : String)
  | NotInChannel (id : String)
  | EmptyMessage
  | MessageTooLong (n : Nat)
  | MessageNotInChannel (id : String)
  | InternalError (msg : String)
  | IoError
deriving DecidableEq, Repr

/-- `LiveError::code`. -/
def LiveError.code : LiveError → Nat
  | .NotAuthenticated       => 1000
  | .InvalidToken           => 1001
  | .InvalidOpcode _        => 1003
  | .InvalidPayload _       => 1004
  | .ChannelNotFound _      => 2000
  | .ChannelFull _          => 2001
  | .ChannelAccessDenied _  => 2002
  | .AlreadyInChannel _     => 2003
  | .NotInChannel _         => 2004
  | .EmptyMessage           => 3000
  | .MessageTooLong _       => 3001
  | .MessageNotInChannel _  => 3002
  | .InternalError _        => 9000
  | .IoError                => 9000

/-- `ChannelMode` from `src/core/channel.rs`. -/
inductive ChannelMode
  | PTT
  | Conference
deriving DecidableEq, Repr

/-- `Channel` from `src/core/channel.rs`; the member `HashSet<String>`
becomes a `Finset String`. -/
structure ChannelSt where
  channel_id : String
  freq       : String
  name       : String
  mode       : ChannelMode
  capacity   : Nat
  created_at : Nat
  members    : Finset String
  floor      : FloorControl
deriving DecidableEq

/-- `Channel::new`. -/
def ChannelSt.mk_new (channel_id freq name : String) (mode : ChannelMode)
    (capacity now : Nat) : ChannelSt :=
  { channel_id := channel_id
    freq       := freq
    name       := name
    mode       := mode
    capacity   := capacity
    created_at := now
    members    := ∅
    floor      := FloorControl.new }

/-- `Channel::add_member`: capacity check first, then duplicate check;
the error cases leave the channel unchanged. -/
def ChannelSt.add_member (c : ChannelSt) (user_id : String) :
    ChannelSt × Option LiveError :=
  if c.capacity ≤ c.members.card then
    (c, some (.ChannelFull c.channel_id))
  else if user_id ∈ c.members then
    (c, some (.AlreadyInChannel c.channel_id))
  else
    ({ c with members := insert user_id c.members }, none)

/-- `ChannelHub`'s `HashMap<String, Arc<Channel>>` as an association list
with unique keys. -/
abbrev ChannelHubSt := List (String × ChannelSt)

/-- `ChannelHub::get`. -/
def hub_get (h : ChannelHubSt) (channel_id : String) : Option ChannelSt :=
  (h.find? (fun kv => kv.1 = channel_id)).map (·.2)

/-- `ChannelHub::create` (`entry(..).or_insert_with(..)`): return the
existing channel untouched, or insert a fresh one. -/
def hub_create (h : ChannelHubSt) (channel_id freq name : String)
    (mode : ChannelMode) (capacity now : Nat) : ChannelHubSt × ChannelSt :=
  match hub_get h channel_id with
  | some ch => (h, ch)
  | none =>
      let ch := ChannelSt.mk_new channel_id freq name mode capacity now
      ((channel_id, ch) :: h, ch)

/-- `ChannelHub::remove` (`remove(..).is_some()`). -/
def hub_remove (h : ChannelHubSt) (channel_id : String) :
    ChannelHubSt × Bool :=
  if (hub_get h channel_id).isSome then
    (h.eraseP (fun kv => kv.1 = channel_id), true)
  else (h, false)

/-- `MediaPeerHub` from `src/core/media_peer.rs`. `store` models the set
of live `Arc<Endpoint>` values keyed by the immutable unique `ufrag`;
`by_ufrag` and `by_addr` are the two indices, holding keys into `store`
(an `Arc` stays reachable through `by_addr` after `by_ufrag` removal). -/
structure MediaPeerHubSt where
  store    : List (String × Endpoint)
  by_ufrag : List String
  by_addr  : List (Nat × String)
deriving DecidableEq, Repr

/-- `MediaPeerHub::new`. -/
def MediaPeerHubSt.new : MediaPeerHubSt := ⟨[], [], []⟩

/-- Lookup of a shared endpoint by its `ufrag` key. -/
def storeLookup (s : List (String × Endpoint)) (ufrag : String) :
    Option Endpoint :=
  (s.find? (fun kv => kv.1 = ufrag)).map (·.2)

/-- In-place mutation of a shared endpoint (all holders of the `Arc`
observe it). -/
def storeUpdate (s : List (String × Endpoint)) (ufrag : String)
    (f : Endpoint → Endpoint) : List (String × Endpoint) :=
  s.map (fun kv => if kv.1 = ufrag then (kv.1, f kv.2) else kv)

/-- `MediaPeerHub::insert`. -/
def MediaPeerHubSt.insert (h : MediaPeerHubSt)
    (ufrag ice_pwd user_id channel_id : String) :
    MediaPeerHubSt × Endpoint :=
  let ep : Endpoint := ⟨ufrag, ice_pwd, user_id, channel_id, none⟩
  ({ h with
     store    := (ufrag, ep) :: h.store
     by_ufrag := ufrag :: h.by_ufrag }, ep)

/-- `MediaPeerHub::latch`: resolve the ufrag, set the endpoint's address
(`Endpoint::latch_address`), and (re)bind `by_addr[addr]` to it. -/
def MediaPeerHubSt.latch (h : MediaPeerHubSt) (ufrag : String)
    (addr : Nat) : MediaPeerHubSt × Option Endpoint :=
  if ufrag ∈ h.by_ufrag then
    match storeLookup h.store ufrag with
    | some ep =>
        ({ h with
           store   := storeUpdate h.store ufrag
                        (fun e => { e with address := some addr })
           by_addr := (addr, ufrag) ::
                        h.by_addr.eraseP (fun kv => kv.1 = addr) },
         some { ep with address := some addr })
    | none => (h, none)
  else (h, none)

/-- `MediaPeerHub::get_by_addr`. -/
def MediaPeerHubSt.get_by_addr (h : MediaPeerHubSt) (addr : Nat) :
    Option Endpoint :=
  (h.by_addr.find? (fun kv => kv.1 = addr)).bind
    (fun kv => storeLookup h.store kv.2)

/-- `MediaPeerHub::get_by_ufrag`. -/
def MediaPeerHubSt.get_by_ufrag (h : MediaPeerHubSt) (ufrag : String) :
    Option Endpoint :=
  if ufrag ∈ h.by_ufrag then storeLookup h.store ufrag else none

/-- `MediaPeerHub::remove`: drop the `by_ufrag` entry; if the endpoint
recorded an address, drop exactly that `by_addr` entry. -/
def MediaPeerHubSt.remove (h : MediaPeerHubSt) (ufrag : String) :
    MediaPeerHubSt :=
  if ufrag ∈ h.by_ufrag then
    let h1 := { h with by_ufrag := h.by_ufrag.erase ufrag }
    match storeLookup h.store ufrag with
    | some ep =>
        match ep.address with
        | some addr =>
            { h1 with by_addr := h1.by_addr.eraseP (fun kv => kv.1 = addr) }
        | none => h1
    | none => h1
  else h

/-- The ordering relation the floor queue maintains between an earlier
entry `a` and a later entry `b`: priority non-strictly descending, and
FIFO by `queued_at` among equal priorities. -/
def entryRel (a b : FloorQueueEntry) : Prop :=
  b.priority ≤ a.priority ∧ (a.priority = b.priority → a.queued_at ≤ b.queued_at)

/-- Well-formedness of a floor queue: pairwise `entryRel` and no repeated
`user_id`. -/
def queueWF (q : List FloorQueueEntry) : Prop :=
  q.Pairwise entryRel ∧ (q.map (fun e => e.user_id)).Nodup

/-- Claim C2 (failing input): channel floor granted to `alice`
(priority 100, Normal); `alice`, while holding the floor, issues a
FLOOR_REQUEST with the same priority. `can_preempt` is false, so the
handler enqueues her: afterwards she is both the holder and the sole
queue entry, violating the holder-not-in-queue invariant. -/
theorem C2_holder_enqueued_on_rerequest :
    ((handle_floor_request 2000 "alice" 100 .Normal "CH1"
        (FloorControl.new.grant 1000 "alice" 100 .Normal)).1.floor_taken_by
      = some "alice")
    ∧ ((handle_floor_request 2000 "alice" 100 .Normal "CH1"
        (FloorControl.new.grant 1000 "alice" 100 .Normal)).1.state
      = .Taken)
    ∧ ((handle_floor_request 2000 "alice" 100 .Normal "CH1"
        (FloorControl.new.grant 1000 "alice" 100 .Normal)).1.queue.map
          (fun e => e.user_id)
      = ["alice"]) := by
  decide

/-- Claim C4 (counterexample): a datagram whose first byte is 192 is, per
the claim, outside every handled range and must be dropped; `classify`
instead routes every first byte at or above 128 to the SRTP handler. -/
theorem C4_first_byte_192_dispatched :
    dispatch [192] = some Handler.srtpHandler ∧ dispatch [192] ≠ none := by
  decide

/-- Claim C4 (amended): the demultiplexer classifies 0–3 → STUN,
20–63 → DTLS, and 128–255 (not 128–191) → the SRTP path; a datagram is
dispatched to no handler exactly when it is empty or its first byte lies
in 4–19 or 64–127. -/
theorem C4_classify_ranges (b : Nat) (rest : List Nat) :
    (dispatch (b :: rest) = some Handler.stunHandler ↔ b ≤ 3)
    ∧ (dispatch (b :: rest) = some Handler.dtlsHandler ↔ 20 ≤ b ∧ b ≤ 63)
    ∧ (dispatch (b :: rest) = some Handler.srtpHandler ↔ 128 ≤ b)
    ∧ (dispatch (b :: rest) = none ↔
        (4 ≤ b ∧ b ≤ 19) ∨ (64 ≤ b ∧ b ≤ 127))
    ∧ dispatch [] = none := by
  have hne : (b :: rest : List Nat) ≠ [] := by simp
  refine ⟨?_, ?_, ?_, ?_, rfl⟩ <;>
    · simp only [dispatch, if_neg hne, classify, List.head?]
      split_ifs <;> simp_all <;> omega

/-- Claim C5 (counterexample): a packet whose second byte is 72 (an RTP
payload type with the marker bit clear, outside 200–207) is nevertheless
sub-classified as SRTCP, because the code masks the byte with `0x7F` and
tests the 72–79 range. -/
theorem C5_second_byte_72_is_rtcp :
    srtp_sub_classify [128, 72] = SrtpSub.Rtcp
    ∧ ¬((200 : Nat) ≤ 72 ∧ (72 : Nat) ≤ 207) := by
  decide

/-- Claim C5 (amended): on the SRTP/SRTCP path a packet is sub-classified
as SRTCP exactly when its second byte masked with `0x7F` lies in 72–79 —
equivalently, for byte values, exactly when the unmasked second byte lies
in 72–79 or in 200–207; every other second byte is treated as SRTP. -/
theorem C5_rtcp_range (b0 b1 : Nat) (rest : List Nat) (hb : b1 < 256) :
    srtp_sub_classify (b0 :: b1 :: rest) = SrtpSub.Rtcp ↔
      (72 ≤ b1 ∧ b1 ≤ 79) ∨ (200 ≤ b1 ∧ b1 ≤ 207) := by
  simp only [srtp_sub_classify, srtp_is_rtcp, List.getD_cons_succ,
    List.getD_cons_zero]
  split_ifs with h
  · simp only [true_iff]
    simp only [Bool.and_eq_true, decide_eq_true_eq] at h
    omega
  · simp only [Bool.and_eq_true, decide_eq_true_eq, not_and_or, not_le] at h
    simp only [reduceCtorEq, false_iff, not_or, not_and, not_le]
    omega

/-- Claim C5 (amended, witness): instance at second byte 200. -/
theorem C5_rtcp_range_witness :
    (200 : Nat) < 256
    ∧ (srtp_sub_classify [128, 200] = SrtpSub.Rtcp ↔
        (72 ≤ 200 ∧ (200 : Nat) ≤ 79) ∨ (200 ≤ 200 ∧ (200 : Nat) ≤ 207)) :=
  ⟨by decide, C5_rtcp_range 128 200 [] (by decide)⟩

/-- Claim C1: a successfully decrypted SRTP payload is relayed only when
the channel exists, its floor is `Taken`, and the holder is the sender's
`user_id` at the moment the floor is inspected; every performed send then
targets an endpoint of the same channel other than the sender. When the
gate fails (missing channel, state not `Taken`, or different holder) the
relay sends nothing. -/
theorem C1_floor_gate (channelFloor? : Option FloorControl)
    (plaintext : List Nat) (sender_user sender_ufrag channel_id : String)
    (eps : List Endpoint) (enc : String → List Nat → Option (List Nat)) :
    (∀ s ∈ relay_to_channel channelFloor? plaintext sender_user
        sender_ufrag channel_id eps enc,
      (∃ floor, channelFloor? = some floor ∧ floor.state = .Taken ∧
          floor.floor_taken_by = some sender_user)
      ∧ ∃ ep ∈ eps, ep.channel_id = channel_id ∧ ep.ufrag ≠ sender_ufrag ∧
          ep.user_id = s.1 ∧ ep.address = some s.2.1)
    ∧ ((∀ floor, channelFloor? = some floor →
          ¬(floor.state = .Taken ∧ floor.floor_taken_by = some sender_user)) →
        relay_to_channel channelFloor? plaintext sender_user sender_ufrag
          channel_id eps enc = []) := by
  constructor
  · intro s hs
    match hfl : channelFloor? with
    | none => simp [relay_to_channel] at hs
    | some floor =>
      by_cases hgate : floor.state = .Taken ∧
          floor.floor_taken_by = some sender_user
      · refine ⟨⟨floor, rfl, hgate.1, hgate.2⟩, ?_⟩
        rw [relay_to_channel, if_pos hgate] at hs
        obtain ⟨target, htmem, htf⟩ := List.mem_filterMap.1 hs
        obtain ⟨hteps, htch⟩ := List.mem_filter.1 htmem
        refine ⟨target, hteps, by simpa using htch, ?_⟩
        by_cases hsu : target.ufrag = sender_ufrag
        · rw [if_pos hsu] at htf; cases htf
        · rw [if_neg hsu] at htf
          match ha : target.address with
          | none => rw [ha] at htf; cases htf
          | some addr =>
            rw [ha] at htf
            obtain ⟨c, _, hc⟩ := Option.map_eq_some'.1 htf
            subst hc
            exact ⟨hsu, rfl, rfl⟩
      · rw [relay_to_channel, if_neg hgate] at hs
        cases hs
  · intro hgate
    match hfl : channelFloor? with
    | none => simp [relay_to_channel]
    | some floor => rw [relay_to_channel, if_neg (hgate floor rfl)]

/-- Claim C1 (witness): with no channel found, nothing is sent. -/
theorem C1_floor_gate_witness :
    relay_to_channel none [0] "alice" "uf" "CH1" [] (fun _ p => some p) = [] :=
  (C1_floor_gate none [0] "alice" "uf" "CH1" [] (fun _ p => some p)).2
    (fun _ h => by cases h)

/-- Claim C7: `decide_next` on a floor with a non-empty queue pops the
head, grants it, and returns `[FLOOR_GRANTED to the new holder,
FLOOR_TAKEN broadcast excluding the new holder]` in that order (so the
dispatch sends `FLOOR_GRANTED` first); on an empty queue it clears the
taken state back to `Idle` and returns a single unrestricted `FLOOR_IDLE`
broadcast. -/
theorem C7_decide_next (channel_id : String) (now : Nat)
    (floor : FloorControl) :
    (∀ e rest, floor.queue = e :: rest →
      decide_next channel_id now floor =
        (({ floor with queue := rest }).grant now e.user_id e.priority
            e.indicator,
         [(some e.user_id, none,
           .FloorGranted channel_id e.user_id FLOOR_MAX_TAKEN_MS),
          (none, some e.user_id,
           .FloorTaken channel_id e.user_id e.indicator)])
      ∧ (decide_next channel_id now floor).1.floor_taken_by = some e.user_id
      ∧ (decide_next channel_id now floor).1.state = .Taken
      ∧ dispatch_packets (decide_next channel_id now floor).2 =
          [.toUser e.user_id
             (.FloorGranted channel_id e.user_id FLOOR_MAX_TAKEN_MS),
           .broadcast (some e.user_id)
             (.FloorTaken channel_id e.user_id e.indicator)])
    ∧ (floor.queue = [] →
      decide_next channel_id now floor =
        (floor.clear_taken, [(none, none, .FloorIdle channel_id)])
      ∧ floor.clear_taken.state = .Idle
      ∧ floor.clear_taken.floor_taken_by = none
      ∧ dispatch_packets (decide_next channel_id now floor).2 =
          [.broadcast none (.FloorIdle channel_id)]) := by
  constructor
  · intro e rest h
    simp [decide_next, FloorControl.dequeue_next, h, dispatch_packets,
      FloorControl.grant]
  · intro h
    simp [decide_next, FloorControl.dequeue_next, h, dispatch_packets,
      FloorControl.clear_taken]

/-- Claim C7 (witness): instances on a one-entry queue and an empty
queue. -/
theorem C7_decide_next_witness :
    (decide_next "CH1" 5 { FloorControl.new with
        queue := [⟨"bob", 7, .Normal, 1⟩] } =
      (({ FloorControl.new with queue := ([] : List FloorQueueEntry) }).grant
          5 "bob" 7 .Normal,
       [(some "bob", none, .FloorGranted "CH1" "bob" FLOOR_MAX_TAKEN_MS),
        (none, some "bob", .FloorTaken "CH1" "bob" .Normal)]))
    ∧ decide_next "CH1" 5 FloorControl.new =
        (FloorControl.new.clear_taken, [(none, none, .FloorIdle "CH1")]) :=
  ⟨((C7_decide_next "CH1" 5 { FloorControl.new with
      queue := [⟨"bob", 7, .Normal, 1⟩] }).1 ⟨"bob", 7, .Normal, 1⟩ [] rfl).1,
   ((C7_decide_next "CH1" 5 FloorControl.new).2 rfl).1⟩

/-- Claim C6: on a FLOOR_REQUEST while the floor is `Taken`, preemption
happens exactly when the indicator is Emergency or the request's priority
strictly exceeds the holder's; the handler then regrants to the requester
and stages `FLOOR_REVOKE{preempted}` to the old holder, `FLOOR_GRANTED`
to the requester, and a `FLOOR_TAKEN` broadcast excluding the new holder,
in that order. Without preemption the requester is enqueued and receives
only `FLOOR_QUEUE_POS_INFO` with its 1-based position and the queue
size. -/
theorem C6_preemption (now : Nat) (user_id : String) (priority : Nat)
    (indicator : FloorIndicator) (channel_id : String)
    (floor : FloorControl) (hstate : floor.state = .Taken) :
    (floor.can_preempt priority indicator = true ↔
      indicator = .Emergency ∨ floor.floor_priority < priority)
    ∧ (floor.can_preempt priority indicator = true →
        (handle_floor_request now user_id priority indicator channel_id
            floor).1 = floor.grant now user_id priority indicator
        ∧ (handle_floor_request now user_id priority indicator channel_id
            floor).1.floor_taken_by = some user_id
        ∧ request_sends user_id (handle_floor_request now user_id priority
            indicator channel_id floor).2 =
            [.toUser (floor.floor_taken_by.getD "")
               (.FloorRevoke channel_id "preempted"),
             .toUser user_id
               (.FloorGranted channel_id user_id FLOOR_MAX_TAKEN_MS),
             .broadcast (some user_id)
               (.FloorTaken channel_id user_id indicator)])
    ∧ (floor.can_preempt priority indicator = false →
        (handle_floor_request now user_id priority indicator channel_id
            floor).1 = floor.enqueue now user_id priority indicator
        ∧ request_sends user_id (handle_floor_request now user_id priority
            indicator channel_id floor).2 =
            [.toUser user_id (.FloorQueuePosInfo channel_id
               (((floor.enqueue now user_id priority
                   indicator).queue_position user_id).getD 1)
               (floor.enqueue now user_id priority
                   indicator).queue.length)]) := by
  refine ⟨?_, ?_, ?_⟩
  · cases indicator <;> simp [FloorControl.can_preempt, hstate]
  · intro hcp
    simp [handle_floor_request, hstate, hcp, request_sends,
      FloorControl.grant]
  · intro hcp
    simp [handle_floor_request, hstate, hcp, request_sends]

/-- Claim C6 (witness): holder `alice` at priority 100; `bob` preempts
with an Emergency request, `carol` with priority 50 is queued. -/
theorem C6_preemption_witness :
    (FloorControl.new.grant 1 "alice" 100 .Normal).state
        = FloorControlState.Taken
    ∧ ((FloorControl.new.grant 1 "alice" 100 .Normal).can_preempt 50
          .Emergency = true ↔
        FloorIndicator.Emergency = FloorIndicator.Emergency ∨
          (FloorControl.new.grant 1 "alice" 100 .Normal).floor_priority < 50)
    ∧ ((FloorControl.new.grant 1 "alice" 100 .Normal).can_preempt 50
          .Normal = false →
        (handle_floor_request 2 "carol" 50 .Normal "CH1"
            (FloorControl.new.grant 1 "alice" 100 .Normal)).1
          = (FloorControl.new.grant 1 "alice" 100 .Normal).enqueue 2
              "carol" 50 .Normal
        ∧ request_sends "carol" (handle_floor_request 2 "carol" 50 .Normal
            "CH1" (FloorControl.new.grant 1 "alice" 100 .Normal)).2 =
            [.toUser "carol" (.FloorQueuePosInfo "CH1"
               ((((FloorControl.new.grant 1 "alice" 100 .Normal).enqueue 2
                   "carol" 50 .Normal).queue_position "carol").getD 1)
               ((FloorControl.new.grant 1 "alice" 100 .Normal).enqueue 2
                   "carol" 50 .Normal).queue.length)]) :=
  ⟨rfl,
   (C6_preemption 2 "bob" 50 .Emergency "CH1"
      (FloorControl.new.grant 1 "alice" 100 .Normal) rfl).1,
   (C6_preemption 2 "carol" 50 .Normal "CH1"
      (FloorControl.new.grant 1 "alice" 100 .Normal) rfl).2.2⟩

/-- Membership through the priority-ordered insertion. -/
theorem mem_insertByPriority {x entry : FloorQueueEntry}
    {l : List FloorQueueEntry} :
    x ∈ insertByPriority entry l ↔ x = entry ∨ x ∈ l := by
  induction l with
  | nil => simp [insertByPriority]
  | cons e rest ih =>
    by_cases h : e.priority < entry.priority
    · rw [insertByPriority, if_pos h]
      simp [List.mem_cons]
    · rw [insertByPriority, if_neg h]
      simp only [List.mem_cons, ih]
      tauto

/-- `insertByPriority` is a permutation of consing the entry. -/
theorem insertByPriority_perm (entry : FloorQueueEntry)
    (l : List FloorQueueEntry) :
    (insertByPriority entry l).Perm (entry :: l) := by
  induction l with
  | nil => rw [insertByPriority]
  | cons e rest ih =>
    by_cases h : e.priority < entry.priority
    · rw [insertByPriority, if_pos h]
    · rw [insertByPriority, if_neg h]
      exact (ih.cons e).trans (List.Perm.swap entry e rest)

/-- Inserting at the first strictly-lower-priority position preserves the
queue ordering, provided the new entry is at least as recent as every
equal-priority entry already present. -/
theorem pairwise_insertByPriority {entry : FloorQueueEntry}
    {l : List FloorQueueEntry} (hp : l.Pairwise entryRel)
    (hq : ∀ x ∈ l, x.priority = entry.priority →
      x.queued_at ≤ entry.queued_at) :
    (insertByPriority entry l).Pairwise entryRel := by
  induction l with
  | nil => simp [insertByPriority, entryRel]
  | cons e rest ih =>
    rcases List.pairwise_cons.1 hp with ⟨he, hrest⟩
    by_cases h : e.priority < entry.priority
    · rw [insertByPriority, if_pos h]
      refine List.pairwise_cons.2 ⟨?_, hp⟩
      intro y hy
      rcases List.mem_cons.1 hy with rfl | hy'
      · exact ⟨le_of_lt h, fun hpe => absurd hpe (by omega)⟩
      · have hy2 := he y hy'
        rw [entryRel] at hy2 ⊢
        constructor
        · omega
        · intro hpe
          omega
    · rw [insertByPriority, if_neg h]
      refine List.pairwise_cons.2 ⟨?_, ?_⟩
      · intro y hy
        rcases mem_insertByPriority.1 hy with rfl | hy'
        · exact ⟨Nat.le_of_not_lt h,
            fun hpe => hq e (List.mem_cons_self e rest) hpe⟩
        · exact he y hy'
      · exact ih hrest (fun x hx h' => hq x (List.mem_cons_of_mem e hx) h')

/-- A strict length decrease for the `retain` step when the user is
already queued. -/
theorem filter_user_length_lt {q : List FloorQueueEntry} {u : String}
    (hmem : ∃ x ∈ q, x.user_id = u) :
    (q.filter (fun e => e.user_id ≠ u)).length < q.length := by
  obtain ⟨x, hx, hxu⟩ := hmem
  induction q with
  | nil => cases hx
  | cons e rest ih =>
    rcases List.mem_cons.1 hx with rfl | hx'
    · rw [List.filter_cons, if_neg (by simp [hxu])]
      have := List.length_filter_le (fun e => e.user_id ≠ u) rest
      simpa [Nat.lt_succ_iff] using this
    · rw [List.filter_cons]
      split_ifs
      · simpa using ih hx'
      · have := List.length_filter_le (fun e => e.user_id ≠ u)
          (e :: rest)
        simp only [List.length_cons]
        have h1 := ih hx'
        omega

/-- Claim C3: every `FloorControl` queue operation (`enqueue`,
`dequeue_next`, `remove_from_queue`) preserves the queue invariant
(priority non-strictly descending, `queued_at` non-decreasing among equal
priorities, each `user_id` at most once), assuming the clock is monotone
(`now` at least every recorded `queued_at`); and enqueueing a user who is
already present does not grow the queue. -/
theorem C3_queue_ops_preserve_invariant (f : FloorControl) (now : Nat)
    (u : String) (p : Nat) (ind : FloorIndicator)
    (hwf : queueWF f.queue) (hnow : ∀ x ∈ f.queue, x.queued_at ≤ now) :
    queueWF (f.enqueue now u p ind).queue
    ∧ queueWF (f.dequeue_next).2.queue
    ∧ queueWF (f.remove_from_queue u).queue
    ∧ ((∃ x ∈ f.queue, x.user_id = u) →
        (f.enqueue now u p ind).queue.length ≤ f.queue.length) := by
  obtain ⟨hpair, hnodup⟩ := hwf
  have hkept : (f.queue.filter (fun e => e.user_id ≠ u)).Sublist f.queue :=
    List.filter_sublist f.queue
  refine ⟨⟨?_, ?_⟩, ?_, ⟨hpair.sublist hkept, ?_⟩, ?_⟩
  · exact pairwise_insertByPriority (hpair.sublist hkept)
      (fun x hx _ => hnow x (hkept.mem hx))
  · have hperm := (insertByPriority_perm
      (⟨u, p, ind, now⟩ : FloorQueueEntry)
      (f.queue.filter (fun e => e.user_id ≠ u))).map (fun e => e.user_id)
    rw [FloorControl.enqueue]
    refine hperm.nodup_iff.2 ?_
    rw [List.map_cons, List.nodup_cons]
    constructor
    · intro hmem
      obtain ⟨x, hx, hxu⟩ := List.mem_map.1 hmem
      have := List.of_mem_filter hx
      simp only [decide_not, Bool.not_eq_eq_eq_not, Bool.not_true,
        decide_eq_false_iff_not] at this
      exact this hxu
    · exact hnodup.sublist (hkept.map (fun e => e.user_id))
  · rw [FloorControl.dequeue_next]
    match hq : f.queue with
    | [] => exact ⟨hpair, hnodup⟩
    | e :: rest =>
      rw [hq] at hpair hnodup
      exact ⟨(List.pairwise_cons.1 hpair).2,
        (List.nodup_cons.1 (by simpa using hnodup)).2⟩
  · exact hnodup.sublist (hkept.map (fun e => e.user_id))
  · intro hmem
    have hlt := filter_user_length_lt (q := f.queue) (u := u) hmem
    have hlen := (insertByPriority_perm
      (⟨u, p, ind, now⟩ : FloorQueueEntry)
      (f.queue.filter (fun e => e.user_id ≠ u))).length_eq
    have hq : (f.enqueue now u p ind).queue =
        insertByPriority (⟨u, p, ind, now⟩ : FloorQueueEntry)
          (f.queue.filter (fun e => e.user_id ≠ u)) := rfl
    rw [hq]
    simp only [List.length_cons] at hlen
    omega

/-- Claim C3 (witness): re-enqueue of `b` into a well-formed two-entry
queue keeps the invariant. -/
theorem C3_queue_ops_witness :
    queueWF (({ FloorControl.new with
        queue := [⟨"a", 200, .Normal, 1⟩, ⟨"b", 100, .Normal, 2⟩]
      } : FloorControl).enqueue 5 "b" 150 .Normal).queue :=
  (C3_queue_ops_preserve_invariant
    { FloorControl.new with
      queue := [⟨"a", 200, .Normal, 1⟩, ⟨"b", 100, .Normal, 2⟩] }
    5 "b" 150 .Normal
    ⟨List.pairwise_cons.2
      ⟨fun y hy => by
          rcases List.mem_singleton.1 hy with rfl
          exact ⟨by decide, fun _ => by decide⟩,
        List.pairwise_singleton _ _⟩,
      by decide⟩
    (fun x hx => by
      rcases List.mem_cons.1 hx with rfl | hx1
      · decide
      · rcases List.mem_singleton.1 hx1 with rfl
        decide)).1

/-- Claim C8: `add_member` on a channel at capacity fails with
`ChannelFull` (code 2001) for any user, leaving the member set (and its
size) unchanged; on a channel below capacity that already contains the
user it fails with `AlreadyInChannel` (code 2003), again without
mutation. -/
theorem C8_add_member_errors (c : ChannelSt) (u : String) :
    (c.members.card = c.capacity →
      c.add_member u = (c, some (.ChannelFull c.channel_id))
      ∧ (LiveError.ChannelFull c.channel_id).code = 2001
      ∧ (c.add_member u).1.members.card = c.capacity)
    ∧ (c.members.card < c.capacity → u ∈ c.members →
      c.add_member u = (c, some (.AlreadyInChannel c.channel_id))
      ∧ (LiveError.AlreadyInChannel c.channel_id).code = 2003
      ∧ (c.add_member u).1.members = c.members) := by
  constructor
  · intro hfull
    have hle : c.capacity ≤ c.members.card := le_of_eq hfull.symm
    rw [ChannelSt.add_member, if_pos hle]
    exact ⟨rfl, rfl, hfull⟩
  · intro hlt hmem
    have hnle : ¬ c.capacity ≤ c.members.card := by omega
    rw [ChannelSt.add_member, if_neg hnle, if_pos hmem]
    exact ⟨rfl, rfl, rfl⟩

/-- Claim C8 (witness): a capacity-0 channel rejects any join with
`ChannelFull`; a capacity-2 channel holding `a` rejects a second join by
`a` with `AlreadyInChannel`. -/
theorem C8_add_member_errors_witness :
    ((ChannelSt.mk_new "CH" "0001" "room" .PTT 0 0).add_member "bob"
        = (ChannelSt.mk_new "CH" "0001" "room" .PTT 0 0,
           some (.ChannelFull "CH"))
      ∧ (LiveError.ChannelFull "CH").code = 2001
      ∧ ((ChannelSt.mk_new "CH" "0001" "room" .PTT 0 0).add_member
          "bob").1.members.card = 0)
    ∧ (({ ChannelSt.mk_new "CH" "0001" "room" .PTT 2 0 with
          members := {"a"} } : ChannelSt).add_member "a"
        = ({ ChannelSt.mk_new "CH" "0001" "room" .PTT 2 0 with
             members := {"a"} }, some (.AlreadyInChannel "CH"))
      ∧ (LiveError.AlreadyInChannel "CH").code = 2003
      ∧ (({ ChannelSt.mk_new "CH" "0001" "room" .PTT 2 0 with
            members := {"a"} } : ChannelSt).add_member "a").1.members
          = {"a"}) :=
  ⟨(C8_add_member_errors (ChannelSt.mk_new "CH" "0001" "room" .PTT 0 0)
      "bob").1 rfl,
   (C8_add_member_errors
      { ChannelSt.mk_new "CH" "0001" "room" .PTT 2 0 with
        members := {"a"} } "a").2 (by decide) (by simp)⟩

/-- `ChannelHub::create` on an existing id returns the stored channel and
leaves the hub untouched. -/
theorem hub_create_of_mem {h : ChannelHubSt} {cid : String}
    {ch : ChannelSt} (hm : hub_get h cid = some ch) (freq name : String)
    (mode : ChannelMode) (capacity now : Nat) :
    hub_create h cid freq name mode capacity now = (h, ch) := by
  rw [hub_create, hm]

/-- Folding any further `create` calls for an id already present leaves
the hub unchanged. -/
theorem hub_create_foldl_const {cid : String} {ch : ChannelSt}
    (args : List (String × String × ChannelMode × Nat × Nat)) :
    ∀ {h : ChannelHubSt}, hub_get h cid = some ch →
      args.foldl (fun acc a =>
        (hub_create acc cid a.1 a.2.1 a.2.2.1 a.2.2.2.1 a.2.2.2.2).1) h
      = h := by
  induction args with
  | nil => intro h _; rfl
  | cons a rest ih =>
    intro h hm
    rw [List.foldl_cons,
      hub_create_of_mem hm a.1 a.2.1 a.2.2.1 a.2.2.2.1 a.2.2.2.2]
    exact ih hm

/-- Claim C9: once `create` has made a channel for an id, every further
`create` with that id — whatever its arguments — returns the original
channel and leaves the hub unchanged (so N ≥ 1 calls yield exactly one
channel with its fields intact), and `remove` of that id returns true
exactly once, then false. -/
theorem C9_create_idempotent_remove_once (h : ChannelHubSt)
    (cid freq name : String) (mode : ChannelMode) (capacity now : Nat)
    (args : List (String × String × ChannelMode × Nat × Nat))
    (habs : hub_get h cid = none) :
    (hub_create h cid freq name mode capacity now).2
        = ChannelSt.mk_new cid freq name mode capacity now
    ∧ hub_get (hub_create h cid freq name mode capacity now).1 cid
        = some (hub_create h cid freq name mode capacity now).2
    ∧ (∀ freq2 name2 mode2 capacity2 now2,
        hub_create (hub_create h cid freq name mode capacity now).1 cid
            freq2 name2 mode2 capacity2 now2
          = ((hub_create h cid freq name mode capacity now).1,
             (hub_create h cid freq name mode capacity now).2))
    ∧ args.foldl (fun acc a =>
        (hub_create acc cid a.1 a.2.1 a.2.2.1 a.2.2.2.1 a.2.2.2.2).1)
        (hub_create h cid freq name mode capacity now).1
      = (hub_create h cid freq name mode capacity now).1
    ∧ (hub_remove (hub_create h cid freq name mode capacity now).1
        cid).2 = true
    ∧ (hub_remove (hub_remove (hub_create h cid freq name mode capacity
        now).1 cid).1 cid).2 = false := by
  have hc : hub_create h cid freq name mode capacity now =
      ((cid, ChannelSt.mk_new cid freq name mode capacity now) :: h,
       ChannelSt.mk_new cid freq name mode capacity now) := by
    rw [hub_create, habs]
  have hget : hub_get
      ((cid, ChannelSt.mk_new cid freq name mode capacity now) :: h) cid
      = some (ChannelSt.mk_new cid freq name mode capacity now) := by
    simp [hub_get]
  refine ⟨by rw [hc], ?_, ?_, ?_, ?_, ?_⟩
  · rw [hc]; exact hget
  · intro f2 n2 m2 c2 t2
    rw [hc]
    exact hub_create_of_mem hget f2 n2 m2 c2 t2
  · rw [hc]
    exact hub_create_foldl_const args hget
  · rw [hc]
    simp [hub_remove, hget]
  · rw [hc]
    have her : ((cid, ChannelSt.mk_new cid freq name mode capacity now)
        :: h).eraseP (fun kv => kv.1 = cid) = h :=
      List.eraseP_cons_of_pos (by simp)
    simp [hub_remove, hget, her, habs]

/-- Claim C9 (witness): one create on the empty hub, then remove. -/
theorem C9_create_remove_witness :
    (hub_create [] "CH1" "0001" "main" .PTT 10 77).2
        = ChannelSt.mk_new "CH1" "0001" "main" .PTT 10 77
    ∧ (hub_remove (hub_create [] "CH1" "0001" "main" .PTT 10 77).1
        "CH1").2 = true
    ∧ (hub_remove (hub_remove (hub_create [] "CH1" "0001" "main" .PTT 10
        77).1 "CH1").1 "CH1").2 = false :=
  have r := C9_create_idempotent_remove_once [] "CH1" "0001" "main" .PTT
    10 77 [] rfl
  ⟨r.1, r.2.2.2.2.1, r.2.2.2.2.2⟩

/-- Claim C10: after `latch(ufrag, a1)` then `latch(ufrag, a2)` with
`a2 ≠ a1`, `get_by_addr a1` still returns the endpoint (now recording
address `a2`); `remove(ufrag)` deletes only the `a2` mapping, so
afterwards `get_by_addr a1` still returns the removed endpoint while
`get_by_ufrag` returns none and `get_by_addr a2` returns none. -/
theorem C10_stale_addr_after_rebind (uf pwd uid cid : String)
    (a1 a2 : Nat) (hne : a1 ≠ a2) :
    (((((MediaPeerHubSt.new.insert uf pwd uid cid).1.latch uf a1).1.latch
        uf a2).1).get_by_addr a1 = some ⟨uf, pwd, uid, cid, some a2⟩)
    ∧ (((((MediaPeerHubSt.new.insert uf pwd uid cid).1.latch uf
        a1).1.latch uf a2).1.remove uf).get_by_addr a1
      = some ⟨uf, pwd, uid, cid, some a2⟩)
    ∧ (((((MediaPeerHubSt.new.insert uf pwd uid cid).1.latch uf
        a1).1.latch uf a2).1.remove uf).get_by_ufrag uf = none)
    ∧ (((((MediaPeerHubSt.new.insert uf pwd uid cid).1.latch uf
        a1).1.latch uf a2).1.remove uf).get_by_addr a2 = none) := by
  have h1 : (MediaPeerHubSt.new.insert uf pwd uid cid).1 =
      ⟨[(uf, ⟨uf, pwd, uid, cid, none⟩)], [uf], []⟩ := rfl
  have h2 : ((MediaPeerHubSt.new.insert uf pwd uid cid).1.latch uf a1).1 =
      ⟨[(uf, ⟨uf, pwd, uid, cid, some a1⟩)], [uf], [(a1, uf)]⟩ := by
    rw [h1, MediaPeerHubSt.latch]
    simp [storeLookup, storeUpdate, List.eraseP]
  have h3 : (((MediaPeerHubSt.new.insert uf pwd uid cid).1.latch uf
      a1).1.latch uf a2).1 =
      ⟨[(uf, ⟨uf, pwd, uid, cid, some a2⟩)], [uf],
       [(a2, uf), (a1, uf)]⟩ := by
    rw [h2, MediaPeerHubSt.latch]
    simp [storeLookup, storeUpdate, List.eraseP, hne]
  have h4 : (((MediaPeerHubSt.new.insert uf pwd uid cid).1.latch uf
      a1).1.latch uf a2).1.remove uf =
      ⟨[(uf, ⟨uf, pwd, uid, cid, some a2⟩)], [], [(a1, uf)]⟩ := by
    rw [h3, MediaPeerHubSt.remove]
    simp [storeLookup, List.eraseP, List.erase_cons]
  refine ⟨?_, ?_, ?_, ?_⟩
  · rw [h3]
    simp [MediaPeerHubSt.get_by_addr, storeLookup, Ne.symm hne]
  · rw [h4]
    simp [MediaPeerHubSt.get_by_addr, storeLookup]
  · rw [h4]
    simp [MediaPeerHubSt.get_by_ufrag]
  · rw [h4]
    simp [MediaPeerHubSt.get_by_addr, storeLookup, hne]

/-- Claim C10 (witness): concrete instance with addresses 1 and 2. -/
theorem C10_stale_addr_witness :
    (((((MediaPeerHubSt.new.insert "u1" "pw" "alice" "CH1").1.latch "u1"
        1).1.latch "u1" 2).1.remove "u1").get_by_addr 1
      = some ⟨"u1", "pw", "alice", "CH1", some 2⟩)
    ∧ (((((MediaPeerHubSt.new.insert "u1" "pw" "alice" "CH1").1.latch
        "u1" 1).1.latch "u1" 2).1.remove "u1").get_by_ufrag "u1" = none) :=
  have r := C10_stale_addr_after_rebind "u1" "pw" "alice" "CH1" 1 2
    (by decide)
  ⟨r.2.1, r.2.2.1⟩

end MiniLivechat
